import Mathlib

/-!
Shallow embedding of the Voice-to-Text client audio pipeline.

The repository has two content scripts sharing the same resampler and PCM
conversion code: the batch-mode script (`src/client/entrypoints/content.ts`,
with a local VAD and a `/transcribe` upload) and the streaming script
(`src/unnamed/part_000`, a WebSocket client with a partial-result throttle).
JavaScript numbers are modelled as rationals (`ℚ`), times in milliseconds as
naturals (`ℕ`), and `Int16Array` elements as integers (`ℤ`) produced by the
JavaScript `ToInt16` conversion.
-/

/-- Clamp a sample to `[-1, 1]`; source expression
`Math.max(-1, Math.min(1, s))` used in both `downsampleFloat32` and
`floatTo16BitPCM`. -/

def clamp1 (q : ℚ) : ℚ := max (-1) (min 1 q)

/-- Truncation toward zero, the first step of the JavaScript `ToInt16`
conversion applied when a number is stored into an `Int16Array`
(for negative values the truncation is `-⌊-q⌋`, i.e. the ceiling). -/

def ratTrunc (q : ℚ) : ℤ := if 0 ≤ q then ⌊q⌋ else -⌊-q⌋

/-- JavaScript `ToInt16`: truncate toward zero, reduce modulo 2^16, and
reinterpret the residue as a signed 16-bit value. -/

def toInt16 (q : ℚ) : ℤ :=
  let m := ratTrunc q % 65536
  if m < 32768 then m else m - 65536

/-- One sample of `floatTo16BitPCM` (both content scripts):
`const s = Math.max(-1, Math.min(1, input[i])); output[i] = s < 0 ? s * 0x8000 : s * 0x7fff;`. -/

def pcmSample (s : ℚ) : ℤ :=
  let c := clamp1 s
  if c < 0 then toInt16 (c * 32768) else toInt16 (c * 32767)

/-- `floatTo16BitPCM` on a float block (when handed an `Int16Array` the
source returns it unchanged, which the embedding reflects by never
re-converting integer blocks). -/

def floatTo16BitPCM (input : List ℚ) : List ℤ := input.map pcmSample

/-- The `while (offsetResult < newLen)` loop body of `downsampleFloat32`
(identical in `content.ts` and the streaming script): `fuel` is the number
of remaining iterations (`newLen - offsetResult`), `k` is `offsetResult`,
and `offsetBuffer` is carried exactly as in the source; each iteration
averages the input samples in `[offsetBuffer, min nextOffsetBuffer len)`,
divides by `count || 1`, clamps, scales by `0x7fff`, and stores the value
through the `Int16Array` conversion. -/

def downsampleGo (buffer : List ℚ) (ratio : ℚ) : ℕ → ℕ → ℕ → List ℤ
  | 0, _, _ => []
  | fuel + 1, k, offsetBuffer =>
    let nextOffsetBuffer := (⌊((k : ℚ) + 1) * ratio⌋).toNat
    let w := (buffer.drop offsetBuffer).take (nextOffsetBuffer - offsetBuffer)
    let sample := w.sum / ((max w.length 1 : ℕ) : ℚ)
    toInt16 (clamp1 sample * 32767) :: downsampleGo buffer ratio fuel (k + 1) nextOffsetBuffer

/-- `downsampleFloat32(buffer, inRate, outRate)`: equal rates and upsampling
requests pass the block through `floatTo16BitPCM`; otherwise the block is
decimated by the averaging loop with `ratio = inRate / outRate` and
`newLen = Math.floor(buffer.length / ratio)`. -/

def downsampleFloat32 (buffer : List ℚ) (inRate outRate : ℕ) : List ℤ :=
  if outRate = inRate then floatTo16BitPCM buffer
  else if inRate < outRate then floatTo16BitPCM buffer
  else
    let ratio : ℚ := (inRate : ℚ) / (outRate : ℚ)
    let newLen := (⌊(buffer.length : ℚ) / ratio⌋).toNat
    downsampleGo buffer ratio newLen 0 0

/-- Closed form of the decimation window consumed for output index `k`:
input indices `⌊k·ratio⌋ ≤ i < min ⌊(k+1)·ratio⌋ len`. -/

def decimWindow (buffer : List ℚ) (ratio : ℚ) (k : ℕ) : List ℚ :=
  let lo := (⌊(k : ℚ) * ratio⌋).toNat
  let hi := (⌊((k : ℚ) + 1) * ratio⌋).toNat
  (buffer.drop lo).take (hi - lo)

/-- Closed form of the sample produced for output index `k`: the window
average (with the `count || 1` guard) clamped to `[-1,1]`, scaled by
`0x7fff`, and stored through the `Int16Array` conversion. -/

def decimSample (buffer : List ℚ) (ratio : ℚ) (k : ℕ) : ℤ :=
  let w := decimWindow buffer ratio k
  toInt16 (clamp1 (w.sum / ((max w.length 1 : ℕ) : ℚ)) * 32767)

/-!
Voice activity detection (`content.ts`, `procNode.onaudioprocess`).

Each processed block updates the per-session VAD record. The block RMS is
`Math.sqrt(...)` of the mean square of the downsampled `Int16` samples — an
irrational number in general — so the step function takes the block's RMS
and zero-crossing-rate features as rational inputs; everything downstream of
those two features (the adaptive noise floor, the bounded history, the
hysteresis counters and the onset/auto-stop signals) is embedded exactly.
-/

/-- Per-session VAD record of `content.ts`: `noiseFloor`, `vadHistory`,
`voiceDetectedFrames`, `silenceFrames`, `hasDetectedVoice`. -/

structure VADState where
  noiseFloor : ℚ
  vadHistory : List ℚ
  voiceDetectedFrames : ℕ
  silenceFrames : ℕ
  hasDetectedVoice : Bool
deriving DecidableEq

/-- The reset performed by `startRecording`: `noiseFloor = 0.002`, empty
history, zeroed counters, `hasDetectedVoice = false`. -/

def initVAD : VADState :=
  { noiseFloor := 1/500, vadHistory := [], voiceDetectedFrames := 0,
    silenceFrames := 0, hasDetectedVoice := false }

/-- `noiseFloor = noiseFloor * 0.95 + rms * 0.05`. -/

def nfUpdate (s : VADState) (rms : ℚ) : ℚ := s.noiseFloor * (19/20) + rms * (1/20)

/-- The block is a voice candidate iff
`rms > dynamicVoiceThreshold && zcr > 0.02` where
`dynamicVoiceThreshold = (updated noiseFloor) * 3.5`. -/

def isCandidateB (s : VADState) (rms zcr : ℚ) : Bool :=
  decide (nfUpdate s rms * (7/2) < rms) && decide ((1 : ℚ)/50 < zcr)

/-- `vadHistory.push(rms); if (vadHistory.length > 30) vadHistory.shift();` -/

def pushHistory (h : List ℚ) (rms : ℚ) : List ℚ :=
  let h0 := h ++ [rms]
  if 30 < h0.length then h0.tail else h0

/-- Result of one VAD block: the updated state, whether the one-shot onset
notification (`showToast("Listening…")`) fired on this block, and whether
the silence auto-stop condition
`hasDetectedVoice && silenceFrames > 45` holds after the update. -/

structure VADOutput where
  state : VADState
  onsetFired : Bool
  autoStop : Bool
deriving DecidableEq

/-- One iteration of the VAD portion of `procNode.onaudioprocess`
(`content.ts` lines 304-332), applied to the block features. -/

def vadStep (s : VADState) (rms zcr : ℚ) : VADOutput :=
  let cand := isCandidateB s rms zcr
  let v := if cand then s.voiceDetectedFrames + 1 else s.voiceDetectedFrames - 1
  let sil := if cand then 0 else if s.hasDetectedVoice then s.silenceFrames + 1 else s.silenceFrames
  let hdv := s.hasDetectedVoice || (cand && decide (5 < s.voiceDetectedFrames + 1))
  { state := { noiseFloor := nfUpdate s rms, vadHistory := pushHistory s.vadHistory rms,
               voiceDetectedFrames := v, silenceFrames := sil, hasDetectedVoice := hdv },
    onsetFired := cand && (!s.hasDetectedVoice && decide (5 < s.voiceDetectedFrames + 1)),
    autoStop := hdv && decide (45 < sil) }

/-- Folding the VAD over a sequence of block features. -/

def vadRun (s : VADState) (bs : List (ℚ × ℚ)) : VADState :=
  bs.foldl (fun st b => (vadStep st b.1 b.2).state) s

/-- Number of blocks in the run on which the onset notification fired. -/

def vadOnsetCount : VADState → List (ℚ × ℚ) → ℕ
  | _, [] => 0
  | s, b :: bs =>
    (if (vadStep s b.1 b.2).onsetFired then 1 else 0) + vadOnsetCount (vadStep s b.1 b.2).state bs

/-- Number of blocks in the run on which the auto-stop condition held. -/

def vadStopCount : VADState → List (ℚ × ℚ) → ℕ
  | _, [] => 0
  | s, b :: bs =>
    (if (vadStep s b.1 b.2).autoStop then 1 else 0) + vadStopCount (vadStep s b.1 b.2).state bs

/-- Every block of the sequence is a voice candidate in the state reached
when it is processed. -/

def allCandidatesB : VADState → List (ℚ × ℚ) → Bool
  | _, [] => true
  | s, b :: bs => isCandidateB s b.1 b.2 && allCandidatesB (vadStep s b.1 b.2).state bs

/-- Every block of the sequence is a non-candidate (quiet) in the state
reached when it is processed. -/

def allQuietB : VADState → List (ℚ × ℚ) → Bool
  | _, [] => true
  | s, b :: bs => !(isCandidateB s b.1 b.2) && allQuietB (vadStep s b.1 b.2).state bs

/-!
Batch-mode session machine (`content.ts`).

`startRecording` resets the VAD and chunk list, starts capture, and arms a
30000 ms `maxRecordingTimer` that calls `stopRecording` if the session is
still recording; `onaudioprocess` downsamples each block, appends the PCM
chunk, runs the VAD, and calls `stopRecording` on silence auto-stop;
`stopRecording` tears capture down, clears the timer, and either reports
"No audio recorded." (zero combined samples) or posts the audio to
`/transcribe`. Wall-clock timestamps are naturals (ms); the ghost fields
`chunkTimes`, `toasts`, `requestsSent` and `silenceStops` record the
observable effects. As in the VAD embedding, the block's RMS feature is an
input; the zero-crossing rate is computed from the downsampled block. -/

/-- `zcr` loop of `onaudioprocess`: count of adjacent sample pairs with a
strict sign change. -/

def zcrCount : List ℤ → ℕ
  | a :: b :: rest => (if b * a < 0 then 1 else 0) + zcrCount (b :: rest)
  | _ => 0

/-- `zcr /= downsampled.length` (an empty block gives NaN in JavaScript,
which fails the `> 0.02` gate exactly as the rational 0 does here). -/

def zcrOf (pcm : List ℤ) : ℚ := (zcrCount pcm : ℚ) / (pcm.length : ℚ)

/-- Mutable state of the batch-mode content script relevant to recording,
plus ghost observation fields. -/

structure BatchState where
  isRecording : Bool
  timerPending : Bool
  recordingStartTime : ℕ
  recordedChunks : List (List ℤ)
  chunkTimes : List ℕ
  vad : VADState
  elementValue : String
  toasts : List String
  requestsSent : ℕ
  silenceStops : ℕ
deriving DecidableEq

/-- The page state before any recording. -/

def initBatch : BatchState :=
  { isRecording := false, timerPending := false, recordingStartTime := 0,
    recordedChunks := [], chunkTimes := [], vad := initVAD, elementValue := "",
    toasts := [], requestsSent := 0, silenceStops := 0 }

/-- `stopRecording` (`content.ts` lines 358-408): guarded by `isRecording`;
shows "Transcribing…", releases capture and clears `maxRecordingTimer`
(`cleanupRecording`), combines the chunks, and on zero combined samples
reports "No audio recorded." and returns without contacting the server;
otherwise it posts one `/transcribe` request. `recordedChunks` is cleared
in the `finally` block either way. -/

def stopRecordingStep (s : BatchState) : BatchState :=
  if s.isRecording = false then s else
  let s1 := { s with isRecording := false, timerPending := false,
                     toasts := s.toasts ++ ["Transcribing…"] }
  let total := (s1.recordedChunks.map List.length).sum
  if total = 0 then
    { s1 with toasts := s1.toasts ++ ["No audio recorded."],
              recordedChunks := [], chunkTimes := [] }
  else
    { s1 with requestsSent := s1.requestsSent + 1, recordedChunks := [], chunkTimes := [] }

/-- One `onaudioprocess` block at wall-clock time `t` (`content.ts` lines
282-333): inert once recording has stopped (the processor node is
disconnected by `cleanupRecording`); otherwise downsample, append the chunk,
run the VAD on the block features, and on auto-stop call `stopRecording`
(counted in `silenceStops`). -/

def processBlock (inRate : ℕ) (t : ℕ) (samples : List ℚ) (rms : ℚ) (s : BatchState) :
    BatchState :=
  if s.isRecording = false then s else
  let down := downsampleFloat32 samples inRate 16000
  let s1 := { s with recordedChunks := s.recordedChunks ++ [down],
                     chunkTimes := s.chunkTimes ++ [t] }
  let out := vadStep s1.vad rms (zcrOf down)
  let s2 := { s1 with vad := out.state,
                      toasts := if out.onsetFired then s1.toasts ++ ["Listening…"] else s1.toasts }
  if out.autoStop then stopRecordingStep { s2 with silenceStops := s2.silenceStops + 1 } else s2

/-- `startRecording` at wall-clock time `t`: a no-op while recording;
otherwise resets chunks and VAD, marks recording, and arms the 30000 ms
`maxRecordingTimer`. -/

def startStep (t : ℕ) (s : BatchState) : BatchState :=
  if s.isRecording then s else
  { s with isRecording := true, timerPending := true, recordingStartTime := t,
           recordedChunks := [], chunkTimes := [], vad := initVAD }

/-- The `maxRecordingTimer` callback:
`if (isRecording) stopRecording();` — the fired timer is spent. -/

def timerStep (s : BatchState) : BatchState :=
  let s1 := { s with timerPending := false }
  if s1.isRecording then stopRecordingStep s1 else s1

/-- Events driving the batch machine, each carrying its wall-clock time. -/

inductive BatchEvent where
  | startEvt (t : ℕ)
  | blockEvt (t : ℕ) (samples : List ℚ) (rms : ℚ)
  | stopClickEvt (t : ℕ)
  | timerFireEvt (t : ℕ)
deriving DecidableEq

/-- Wall-clock time of an event. -/

def BatchEvent.time : BatchEvent → ℕ
  | .startEvt t => t
  | .blockEvt t _ _ => t
  | .stopClickEvt t => t
  | .timerFireEvt t => t

/-- Dispatch one event. -/

def batchStep (inRate : ℕ) (s : BatchState) : BatchEvent → BatchState
  | .startEvt t => startStep t s
  | .blockEvt t samples rms => processBlock inRate t samples rms s
  | .stopClickEvt _ => stopRecordingStep s
  | .timerFireEvt _ => timerStep s

/-- Run a list of events. -/

def batchRun (inRate : ℕ) (s : BatchState) (evs : List BatchEvent) : BatchState :=
  evs.foldl (batchStep inRate) s

/-- A timed trace is valid from state `s` after time `tprev` when event
times never decrease, no event is delivered past the deadline of an armed
`maxRecordingTimer` (the timer fires first), and a timer-fired event occurs
only while the timer is armed, exactly at `recordingStartTime + 30000`. -/

def timerOk (s : BatchState) : BatchEvent → Bool
  | .timerFireEvt t => s.timerPending && decide (t = s.recordingStartTime + 30000)
  | _ => true

def validFrom (inRate : ℕ) : BatchState → ℕ → List BatchEvent → Bool
  | _, _, [] => true
  | s, tprev, e :: es =>
    decide (tprev ≤ e.time) &&
    (!s.timerPending || decide (e.time ≤ s.recordingStartTime + 30000)) &&
    timerOk s e &&
    validFrom inRate (batchStep inRate s e) e.time es

/-- Is the event an audio block? -/

def isBlockEvt : BatchEvent → Bool
  | .blockEvt _ _ _ => true
  | _ => false

/-- The trace consists only of audio blocks (one uninterrupted stretch of
capture). -/

def allBlockEvts (evs : List BatchEvent) : Bool := evs.all isBlockEvt

/-- Invariant tying the armed `maxRecordingTimer` to the recorded chunks:
while recording the timer is armed and the session started no later than the
last processed event; every recorded chunk was captured within
`[recordingStartTime, recordingStartTime + 30000]`; and chunks do not
outlive their session. -/

def timerInv (s : BatchState) (tprev : ℕ) : Prop :=
  (s.isRecording = true → s.timerPending = true ∧ s.recordingStartTime ≤ tprev) ∧
    (∀ t ∈ s.chunkTimes, s.recordingStartTime ≤ t ∧ t ≤ s.recordingStartTime + 30000) ∧
    (s.isRecording = false → s.chunkTimes = [])

/-- Time of the last event of a trace (or the preceding time for an empty
trace). -/

def lastT (tprev : ℕ) : List BatchEvent → ℕ
  | [] => tprev
  | e :: es => lastT e.time es

/-!
Streaming client session (`src/unnamed/part_000` content script).

`startRecording` opens the WebSocket, sends `start`, and begins forwarding
audio while `isRecording`; `stopRecording` sends `stop` and tears down only
the audio graph, leaving the socket open for the final result;
`handleWsMessage` throttles `partial` messages (fields `lastPartial` and
`lastPartialTs`, modelled as `lastHypo`/`lastHypoTs`) and inserts surviving
hypotheses as live text; `final`, `error` and unexpected `close` run
`cleanupStreaming`. The target editable element is present for the whole
session (`startRecording` refuses to start without one), so live insertion
is modelled by the `liveText` field; `insertedFinal` records a delivered
transcript. The model keeps a single socket: `startEvt` is a no-op while a
session is recording. -/

/-- JavaScript `String.prototype.trim`: strip leading and trailing
whitespace (structural model; `String.trim` from core is not used because
its byte-position recursion does not reduce). -/

def strTrim (s : String) : String :=
  ⟨((s.data.dropWhile Char.isWhitespace).reverse.dropWhile Char.isWhitespace).reverse⟩

/-- JavaScript `String.prototype.startsWith` (structural model over the
character list, like `strTrim`). -/

def strStartsWith (s pre : String) : Bool := pre.data.isPrefixOf s.data

/-- Mutable state of the streaming content script. -/

structure StreamState where
  isRecording : Bool
  wsOpen : Bool
  stopSent : Bool
  lastHypo : String
  lastHypoTs : ℕ
  liveText : Option String
  insertedFinal : Option String
  audioActive : Bool
deriving DecidableEq

/-- Page state before any streaming session. -/

def initStream : StreamState :=
  { isRecording := false, wsOpen := false, stopSent := false, lastHypo := "",
    lastHypoTs := 0, liveText := none, insertedFinal := none, audioActive := false }

/-- The `partial` branch of `handleWsMessage` (lines 627-645): trim the
hypothesis, apply the five throttle checks in source order (empty, shorter
than `PARTIAL_MIN_CHARS = 3`, identical to `lastPartial`, within
`PARTIAL_DEBOUNCE_MS = 250` of `lastPartialTs`,, or a backtracking prefix of
`lastPartial`), and only for a surviving hypothesis update
`lastPartial`/`lastPartialTs` and insert the live text. Returns the new
state and whether the hypothesis was exposed. -/

def handleHypo (s : StreamState) (raw : String) (now : ℕ) : StreamState × Bool :=
  if strTrim raw = "" then (s, false)
  else if (strTrim raw).length < 3 then (s, false)
  else if strTrim raw = s.lastHypo then (s, false)
  else if now - s.lastHypoTs < 250 then (s, false)
  else if s.lastHypo ≠ "" ∧ strStartsWith s.lastHypo (strTrim raw) = true ∧
      (strTrim raw).length < s.lastHypo.length then (s, false)
  else ({ s with lastHypo := strTrim raw, lastHypoTs := now, liveText := some (strTrim raw) },
    true)

/-- Events driving the streaming client: session start, a server `partial`
arriving at wall-clock `now`, a server `final`, a server `error`, the user's
stop click, and the socket closing. -/

inductive StreamEvent where
  | startEvt (t : ℕ)
  | hypoEvt (raw : String) (now : ℕ)
  | finalEvt (raw : String)
  | errorEvt (msg : String)
  | stopClickEvt
  | wsCloseEvt
deriving DecidableEq

/-- One step of the streaming client.

* `startEvt`: `startRecording` — no-op while recording; otherwise opens the
  socket, sends `start`, and starts the audio graph.
* `hypoEvt`: a `partial` server message — dispatched by `ws.onmessage`
  whenever the socket is open (`handleWsMessage` never consults
  `isRecording`), and dropped once the socket is closed.
* `finalEvt`: `finalizeLiveText` replaces the live region with the trimmed
  final transcript, then `cleanupStreaming(false)` closes the socket and
  resets the throttle.
* `errorEvt`: `clearLiveText()` then `cleanupStreaming(true)`.
* `stopClickEvt`: `stopRecording` — guarded by `isRecording`; sends `stop`
  and stops the audio graph but leaves the socket open.
* `wsCloseEvt`: `ws.onclose` — only `if (isRecording)` does it run
  `cleanupStreaming(true)` (which clears the live text); otherwise it does
  nothing. -/

def streamStep (s : StreamState) : StreamEvent → StreamState
  | .startEvt _ =>
    if s.isRecording then s
    else { s with isRecording := true, wsOpen := true, stopSent := false, audioActive := true }
  | .hypoEvt raw now => if s.wsOpen then (handleHypo s raw now).1 else s
  | .finalEvt raw =>
    if s.wsOpen then
      { s with liveText := none, insertedFinal := some (strTrim raw), wsOpen := false,
               isRecording := false, audioActive := false, lastHypo := "", lastHypoTs := 0 }
    else s
  | .errorEvt _ =>
    if s.wsOpen then
      { s with liveText := none, wsOpen := false, isRecording := false,
               audioActive := false, lastHypo := "", lastHypoTs := 0 }
    else s
  | .stopClickEvt =>
    if s.isRecording then { s with isRecording := false, stopSent := true, audioActive := false }
    else s
  | .wsCloseEvt =>
    if s.isRecording then
      { s with liveText := none, wsOpen := false, isRecording := false,
               audioActive := false, lastHypo := "", lastHypoTs := 0 }
    else s

/-- Run a list of streaming events. -/

def streamRun (s : StreamState) (evs : List StreamEvent) : StreamState :=
  evs.foldl streamStep s

theorem floatTo16BitPCM_length (input : List ℚ) :
    (floatTo16BitPCM input).length = input.length := by
  simp [floatTo16BitPCM]

theorem downsampleGo_length (buffer : List ℚ) (ratio : ℚ) :
    ∀ fuel k offsetBuffer, (downsampleGo buffer ratio fuel k offsetBuffer).length = fuel := by
  intro fuel
  induction fuel with
  | zero => intro k off; rfl
  | succ n ih => intro k off; simp [downsampleGo, ih]

theorem downsampleGo_get (buffer : List ℚ) (ratio : ℚ) :
    ∀ fuel k j, j < fuel →
      (downsampleGo buffer ratio fuel k ((⌊(k : ℚ) * ratio⌋).toNat)).get? j =
        some (decimSample buffer ratio (k + j)) := by
  intro fuel
  induction fuel with
  | zero => intro k j hj; omega
  | succ n ih =>
    intro k j hj
    cases j with
    | zero =>
      simp [downsampleGo, decimSample, decimWindow]
    | succ j' =>
      have hcast : ((k : ℚ) + 1) = ((k + 1 : ℕ) : ℚ) := by push_cast; ring
      have := ih (k + 1) j' (by omega)
      calc (downsampleGo buffer ratio (n + 1) k ((⌊(k : ℚ) * ratio⌋).toNat)).get? (j' + 1)
          = (downsampleGo buffer ratio n (k + 1) ((⌊((k : ℚ) + 1) * ratio⌋).toNat)).get? j' := by
            simp [downsampleGo]
        _ = some (decimSample buffer ratio (k + 1 + j')) := by rw [hcast]; exact this
        _ = some (decimSample buffer ratio (k + (j' + 1))) := by ring_nf

theorem downsampleFloat32_length (buffer : List ℚ) (inRate outRate : ℕ)
    (h1 : 0 < outRate) (h2 : outRate ≤ inRate) :
    ((downsampleFloat32 buffer inRate outRate).length : ℤ) =
      ⌊(buffer.length : ℚ) / ((inRate : ℚ) / (outRate : ℚ))⌋ := by
  unfold downsampleFloat32
  by_cases heq : outRate = inRate
  · subst heq
    have hne : (outRate : ℚ) ≠ 0 := by positivity
    rw [if_pos rfl, floatTo16BitPCM_length, div_self hne, div_one, Int.floor_natCast]
  · have hlt : outRate < inRate := lt_of_le_of_ne h2 heq
    rw [if_neg heq, if_neg (by omega)]
    have hratio : (0 : ℚ) < (inRate : ℚ) / (outRate : ℚ) := by
      apply div_pos <;> exact_mod_cast by omega
    have hnn : (0 : ℚ) ≤ (buffer.length : ℚ) / ((inRate : ℚ) / (outRate : ℚ)) :=
      div_nonneg (by positivity) (le_of_lt hratio)
    rw [downsampleGo_length]
    exact Int.toNat_of_nonneg (Int.floor_nonneg.mpr hnn)

/-- C4: for every input block of length `L` at rate `Rin` downsampled to a
positive rate `Rout ≤ Rin`, the resampler returns a block of exactly
`⌊L / (Rin/Rout)⌋` samples; boundary samples in a fractional final window
are dropped (they belong to no produced output index). -/
theorem c4_decimation_length (buffer : List ℚ) (inRate outRate : ℕ)
    (h1 : 0 < outRate) (h2 : outRate ≤ inRate) :
    ((downsampleFloat32 buffer inRate outRate).length : ℤ) =
      ⌊(buffer.length : ℚ) / ((inRate : ℚ) / (outRate : ℚ))⌋ :=
  downsampleFloat32_length buffer inRate outRate h1 h2

/-- Witness for C4: a 10-sample block decimated from 44100 Hz to 16000 Hz
yields `⌊10 / (44100/16000)⌋ = 3` samples. -/
theorem c4_decimation_length_witness :
    (downsampleFloat32 [1, 1, 1, 1, 1, 1, 1, 1, 1, 1] 44100 16000).length = 3 := by
  have h := c4_decimation_length [1, 1, 1, 1, 1, 1, 1, 1, 1, 1] 44100 16000
    (by norm_num) (by norm_num)
  simp only [List.length_cons, List.length_nil] at h
  norm_num at h
  exact_mod_cast h

/-- C5 counterexample: the decimation loop scales a negative window average
by 0x7fff = 32767, not by 32768. On the block `[-1, -1]` decimated 2:1 the
single window has average `-1`; the code outputs `-32767`, while the claimed
asymmetric scaling (negative values scaled by 32768) would give `-32768`. -/
theorem c5_negative_scale_counterexample :
    downsampleFloat32 [-1, -1] 32000 16000 = [-32767] ∧
      toInt16 (clamp1 ((([-1, -1] : List ℚ).sum / 2)) * 32768) = -32768 ∧
      ((-32767 : ℤ) ≠ -32768) := by
  refine ⟨?_, ?_, by decide⟩
  · norm_num [downsampleFloat32, downsampleGo, toInt16, clamp1, ratTrunc]
    simp
    norm_num [toInt16, clamp1, ratTrunc]
  · norm_num [toInt16, clamp1, ratTrunc]

/-- C5 (amended): every decimation window's output sample equals the
window's average (windows delimited by the cumulative boundaries
`⌊k·ratio⌋`, with the `count || 1` guard), clamped to `[-1,1]` and scaled
by 32767 for positive and negative values alike, then truncated toward zero
by the `Int16Array` store; the asymmetric 32768 negative scaling exists only
in `floatTo16BitPCM`, which the decimation path does not use. -/
theorem c5_decimation_sample_amended (buffer : List ℚ) (inRate outRate : ℕ)
    (_h1 : 0 < outRate) (h2 : outRate < inRate) (k : ℕ)
    (hk : k < (downsampleFloat32 buffer inRate outRate).length) :
    (downsampleFloat32 buffer inRate outRate).get? k =
      some (decimSample buffer ((inRate : ℚ) / (outRate : ℚ)) k) := by
  have hne : ¬ outRate = inRate := by omega
  have hnlt : ¬ inRate < outRate := by omega
  unfold downsampleFloat32 at hk ⊢
  rw [if_neg hne, if_neg hnlt] at hk ⊢
  rw [downsampleGo_length] at hk
  have h0 : (0 : ℕ) = (⌊((0 : ℕ) : ℚ) * ((inRate : ℚ) / (outRate : ℚ))⌋).toNat := by
    norm_num
  rw [h0]
  simpa using downsampleGo_get buffer ((inRate : ℚ) / (outRate : ℚ)) _ 0 k hk

/-- Witness for C5 (amended): on `[1/2, 1/2, -3/4, -3/4]` decimated 2:1 the
second window `[-3/4, -3/4]` averages `-3/4` and produces
`trunc(-3/4 · 32767) = -24575`. -/
theorem c5_decimation_sample_amended_witness :
    (downsampleFloat32 [1/2, 1/2, -3/4, -3/4] 32000 16000).get? 1 =
        some (decimSample [1/2, 1/2, -3/4, -3/4] ((32000 : ℚ) / (16000 : ℚ)) 1) ∧
      decimSample [1/2, 1/2, -3/4, -3/4] ((32000 : ℚ) / (16000 : ℚ)) 1 = -24575 := by
  constructor
  · apply c5_decimation_sample_amended [1/2, 1/2, -3/4, -3/4] 32000 16000
      (by norm_num) (by norm_num) 1
    have h := downsampleFloat32_length [1/2, 1/2, -3/4, -3/4] 32000 16000
      (by norm_num) (by norm_num)
    simp only [List.length_cons, List.length_nil] at h
    norm_num at h ⊢
    omega
  · norm_num [decimSample, decimWindow, toInt16, clamp1, ratTrunc]
    simp
    norm_num [toInt16, clamp1, ratTrunc]

theorem vadStep_cand (s : VADState) (rms zcr : ℚ) (h : isCandidateB s rms zcr = true) :
    (vadStep s rms zcr).state.voiceDetectedFrames = s.voiceDetectedFrames + 1 ∧
      (vadStep s rms zcr).state.silenceFrames = 0 ∧
      (vadStep s rms zcr).state.hasDetectedVoice =
        (s.hasDetectedVoice || decide (5 < s.voiceDetectedFrames + 1)) ∧
      (vadStep s rms zcr).onsetFired =
        (!s.hasDetectedVoice && decide (5 < s.voiceDetectedFrames + 1)) := by
  simp [vadStep, h]

theorem vadStep_quiet (s : VADState) (rms zcr : ℚ) (h : isCandidateB s rms zcr = false) :
    (vadStep s rms zcr).state.voiceDetectedFrames = s.voiceDetectedFrames - 1 ∧
      (vadStep s rms zcr).state.silenceFrames =
        (if s.hasDetectedVoice then s.silenceFrames + 1 else s.silenceFrames) ∧
      (vadStep s rms zcr).state.hasDetectedVoice = s.hasDetectedVoice ∧
      (vadStep s rms zcr).onsetFired = false ∧
      (vadStep s rms zcr).autoStop =
        (s.hasDetectedVoice &&
          decide (45 < if s.hasDetectedVoice then s.silenceFrames + 1 else s.silenceFrames)) := by
  simp [vadStep, h]

theorem vadStep_history (s : VADState) (rms zcr : ℚ) :
    (vadStep s rms zcr).state.vadHistory = pushHistory s.vadHistory rms := by
  simp [vadStep]

/-- C8: the VAD RMS history window is bounded by its fixed capacity of 30:
a block processed from a state within capacity stays within capacity, a
block processed at full capacity evicts the oldest entry, a block processed
under capacity merely appends, and the bound is preserved along any whole
session run (in particular from the fresh state, whose history is empty). -/
theorem c8_history_bounded (s : VADState) (rms zcr : ℚ) (h : s.vadHistory.length ≤ 30) :
    (vadStep s rms zcr).state.vadHistory.length ≤ 30 ∧
      (s.vadHistory.length = 30 →
        (vadStep s rms zcr).state.vadHistory = s.vadHistory.tail ++ [rms]) ∧
      (s.vadHistory.length < 30 →
        (vadStep s rms zcr).state.vadHistory = s.vadHistory ++ [rms]) ∧
      (∀ (s0 : VADState) (bs : List (ℚ × ℚ)), s0.vadHistory.length ≤ 30 →
        (vadRun s0 bs).vadHistory.length ≤ 30) := by
  have hstep : ∀ (s1 : VADState) (r z : ℚ), s1.vadHistory.length ≤ 30 →
      (vadStep s1 r z).state.vadHistory.length ≤ 30 := by
    intro s1 r z h1
    rw [vadStep_history, pushHistory]
    by_cases hc : 30 < (s1.vadHistory ++ [r]).length
    · rw [if_pos hc]
      simp only [List.length_tail, List.length_append, List.length_cons, List.length_nil]
      omega
    · rw [if_neg hc]
      simp only [List.length_append, List.length_cons, List.length_nil] at hc ⊢
      omega
  refine ⟨hstep s rms zcr h, ?_, ?_, ?_⟩
  · intro h30
    rw [vadStep_history, pushHistory]
    have hc : 30 < (s.vadHistory ++ [rms]).length := by
      simp [h30]
    rw [if_pos hc]
    cases hs : s.vadHistory with
    | nil => rw [hs] at h30; simp at h30
    | cons a t => simp
  · intro h30
    rw [vadStep_history, pushHistory]
    have hc : ¬ 30 < (s.vadHistory ++ [rms]).length := by
      simp only [List.length_append, List.length_cons, List.length_nil]
      omega
    rw [if_neg hc]
  · intro s0 bs
    induction bs generalizing s0 with
    | nil => intro h0; simpa [vadRun] using h0
    | cons b t ih =>
      intro h0
      have h1 := hstep s0 b.1 b.2 h0
      simpa [vadRun] using ih _ h1

/-- Witness for C8: a state whose history already holds 30 entries stays at
30 entries and evicts the oldest. -/
theorem c8_history_bounded_witness :
    (vadStep { noiseFloor := 1, vadHistory := List.replicate 30 (2 : ℚ),
               voiceDetectedFrames := 0, silenceFrames := 0, hasDetectedVoice := false }
        3 1).state.vadHistory.length ≤ 30 ∧
      (vadStep { noiseFloor := 1, vadHistory := List.replicate 30 (2 : ℚ),
                 voiceDetectedFrames := 0, silenceFrames := 0, hasDetectedVoice := false }
          3 1).state.vadHistory =
        (List.replicate 30 (2 : ℚ)).tail ++ [3] := by
  have h := c8_history_bounded
    { noiseFloor := 1, vadHistory := List.replicate 30 (2 : ℚ),
      voiceDetectedFrames := 0, silenceFrames := 0, hasDetectedVoice := false }
    3 1 (by simp)
  exact ⟨h.1, h.2.1 (by simp)⟩

theorem vadRun_nil (s : VADState) : vadRun s [] = s := rfl

theorem vadRun_cons (s : VADState) (b : ℚ × ℚ) (t : List (ℚ × ℚ)) :
    vadRun s (b :: t) = vadRun (vadStep s b.1 b.2).state t := rfl

theorem vadRun_append (s : VADState) (as bs : List (ℚ × ℚ)) :
    vadRun s (as ++ bs) = vadRun (vadRun s as) bs := by
  simp [vadRun, List.foldl_append]

theorem vadOnsetCount_append (s : VADState) (as bs : List (ℚ × ℚ)) :
    vadOnsetCount s (as ++ bs) = vadOnsetCount s as + vadOnsetCount (vadRun s as) bs := by
  induction as generalizing s with
  | nil => simp [vadOnsetCount, vadRun_nil]
  | cons a t ih => simp [vadOnsetCount, vadRun_cons, ih]; omega

theorem allCandidatesB_take (s : VADState) (bs : List (ℚ × ℚ)) (n : ℕ)
    (h : allCandidatesB s bs = true) : allCandidatesB s (bs.take n) = true := by
  induction bs generalizing s n with
  | nil => simp [allCandidatesB]
  | cons b t ih =>
    cases n with
    | zero => simp [allCandidatesB]
    | succ m =>
      rw [allCandidatesB, Bool.and_eq_true] at h
      simp only [List.take_succ_cons, allCandidatesB, Bool.and_eq_true]
      exact ⟨h.1, ih _ m h.2⟩

theorem allQuietB_take (s : VADState) (bs : List (ℚ × ℚ)) (n : ℕ)
    (h : allQuietB s bs = true) : allQuietB s (bs.take n) = true := by
  induction bs generalizing s n with
  | nil => simp [allQuietB]
  | cons b t ih =>
    cases n with
    | zero => simp [allQuietB]
    | succ m =>
      rw [allQuietB, Bool.and_eq_true] at h
      simp only [List.take_succ_cons, allQuietB, Bool.and_eq_true]
      exact ⟨h.1, ih _ m h.2⟩

theorem candRunTrue (bs : List (ℚ × ℚ)) : ∀ (s : VADState), s.hasDetectedVoice = true →
    allCandidatesB s bs = true →
    (vadRun s bs).voiceDetectedFrames = s.voiceDetectedFrames + bs.length ∧
      (vadRun s bs).hasDetectedVoice = true ∧ vadOnsetCount s bs = 0 := by
  induction bs with
  | nil => intro s h1 _; simp [vadRun_nil, vadOnsetCount, h1]
  | cons b t ih =>
    intro s h1 h2
    rw [allCandidatesB, Bool.and_eq_true] at h2
    obtain ⟨hv, hs, hd, hf⟩ := vadStep_cand s b.1 b.2 h2.1
    have hd1 : (vadStep s b.1 b.2).state.hasDetectedVoice = true := by
      rw [hd, h1, Bool.true_or]
    obtain ⟨iv, id2, ic⟩ := ih (vadStep s b.1 b.2).state hd1 h2.2
    refine ⟨?_, by rwa [vadRun_cons], ?_⟩
    · rw [vadRun_cons, iv, hv, List.length_cons]; omega
    · rw [vadOnsetCount, ic, hf, h1]
      simp

theorem candRunFalse (bs : List (ℚ × ℚ)) : ∀ (s : VADState), s.hasDetectedVoice = false →
    allCandidatesB s bs = true →
    (vadRun s bs).voiceDetectedFrames = s.voiceDetectedFrames + bs.length ∧
      ((vadRun s bs).hasDetectedVoice = true ↔
        (0 < bs.length ∧ 5 < s.voiceDetectedFrames + bs.length)) ∧
      vadOnsetCount s bs =
        (if 0 < bs.length ∧ 5 < s.voiceDetectedFrames + bs.length then 1 else 0) := by
  induction bs with
  | nil =>
    intro s h1 _
    refine ⟨by simp [vadRun_nil], ?_, by simp [vadOnsetCount]⟩
    simp [vadRun_nil, h1]
  | cons b t ih =>
    intro s h1 h2
    rw [allCandidatesB, Bool.and_eq_true] at h2
    obtain ⟨hv, hs, hd, hf⟩ := vadStep_cand s b.1 b.2 h2.1
    by_cases h5 : 5 < s.voiceDetectedFrames + 1
    · have hd1 : (vadStep s b.1 b.2).state.hasDetectedVoice = true := by
        rw [hd, h1]
        simp [h5]
      obtain ⟨iv, id2, ic⟩ := candRunTrue t (vadStep s b.1 b.2).state hd1 h2.2
      refine ⟨?_, ?_, ?_⟩
      · rw [vadRun_cons, iv, hv, List.length_cons]; omega
      · rw [vadRun_cons, id2]
        simp only [true_iff, List.length_cons]
        constructor
        · omega
        · omega
      · rw [vadOnsetCount, ic, hf, h1]
        simp only [Bool.not_false, Bool.true_and, List.length_cons]
        rw [decide_eq_true h5]
        rw [if_pos (show 0 < t.length + 1 ∧ 5 < s.voiceDetectedFrames + (t.length + 1) from
          ⟨by omega, by omega⟩)]
        rfl
    · have hd1 : (vadStep s b.1 b.2).state.hasDetectedVoice = false := by
        rw [hd, h1]
        simp [h5]
      obtain ⟨iv, id2, ic⟩ := ih (vadStep s b.1 b.2).state hd1 h2.2
      refine ⟨?_, ?_, ?_⟩
      · rw [vadRun_cons, iv, hv, List.length_cons]; omega
      · rw [vadRun_cons, id2, hv, List.length_cons]
        constructor
        · rintro ⟨ha, hb⟩; exact ⟨by omega, by omega⟩
        · rintro ⟨ha, hb⟩; exact ⟨by omega, by omega⟩
      · rw [vadOnsetCount, ic, hf, h1, hv]
        simp only [Bool.not_false, Bool.true_and, List.length_cons]
        rw [decide_eq_false h5]
        rw [if_neg (show ¬ (false = true) by simp), Nat.zero_add]
        by_cases hcond : 0 < t.length ∧ 5 < s.voiceDetectedFrames + 1 + t.length
        · rw [if_pos hcond, if_pos (show 0 < t.length + 1 ∧
            5 < s.voiceDetectedFrames + (t.length + 1) from ⟨by omega, by omega⟩)]
        · rw [if_neg hcond, if_neg (show ¬ (0 < t.length + 1 ∧
            5 < s.voiceDetectedFrames + (t.length + 1)) by omega)]

theorem quietRun (bs : List (ℚ × ℚ)) : ∀ (s : VADState), s.hasDetectedVoice = true →
    allQuietB s bs = true →
    (vadRun s bs).silenceFrames = s.silenceFrames + bs.length ∧
      (vadRun s bs).hasDetectedVoice = true ∧
      vadStopCount s bs = (s.silenceFrames + bs.length) - max s.silenceFrames 45 := by
  induction bs with
  | nil =>
    intro s h1 _
    refine ⟨by simp [vadRun_nil], by rw [vadRun_nil, h1], ?_⟩
    rcases le_total s.silenceFrames 45 with h | h
    · rw [max_eq_right h]; simp [vadStopCount]; omega
    · rw [max_eq_left h]; simp [vadStopCount]
  | cons b t ih =>
    intro s h1 h2
    rw [allQuietB, Bool.and_eq_true] at h2
    have hq : isCandidateB s b.1 b.2 = false := by
      have hx := h2.1
      rwa [Bool.not_eq_true'] at hx
    obtain ⟨hv, hs, hd, hf, ha⟩ := vadStep_quiet s b.1 b.2 hq
    rw [h1, if_pos rfl] at hs ha
    have hd1 : (vadStep s b.1 b.2).state.hasDetectedVoice = true := hd.trans h1
    obtain ⟨isil, ihdv, icount⟩ := ih (vadStep s b.1 b.2).state hd1 h2.2
    refine ⟨?_, by rwa [vadRun_cons], ?_⟩
    · rw [vadRun_cons, isil, hs, List.length_cons]; omega
    · rw [vadStopCount, icount, ha, hs, Bool.true_and, List.length_cons]
      rcases le_total 45 s.silenceFrames with h | h
      · rw [max_eq_left (show (45 : ℕ) ≤ s.silenceFrames + 1 by omega), max_eq_left h,
          decide_eq_true (show 45 < s.silenceFrames + 1 by omega), if_pos rfl]
        omega
      · rcases eq_or_lt_of_le h with h45 | h45
        · rw [max_eq_left (show (45 : ℕ) ≤ s.silenceFrames + 1 by omega), max_eq_right h,
            decide_eq_true (show 45 < s.silenceFrames + 1 by omega), if_pos rfl]
          omega
        · rw [max_eq_right (show s.silenceFrames + 1 ≤ 45 by omega), max_eq_right h,
            decide_eq_false (show ¬ 45 < s.silenceFrames + 1 by omega),
            if_neg (show ¬ (false = true) by simp)]
          omega

/-- C2: from a fresh VAD state, four voice-candidate blocks followed by one
non-candidate block never set `hasDetectedVoice` (at no prefix of the run is
it set, and the onset notification never fires); six consecutive candidate
blocks set it with the onset notification firing exactly once; a seventh
consecutive candidate block produces no duplicate onset notification. -/
theorem c2_vad_onset_hysteresis (s : VADState)
    (h0v : s.voiceDetectedFrames = 0) (h0d : s.hasDetectedVoice = false) :
    (∀ cs q, cs.length = 4 → allCandidatesB s cs = true →
        isCandidateB (vadRun s cs) q.1 q.2 = false →
        (∀ n, (vadRun s ((cs ++ [q]).take n)).hasDetectedVoice = false) ∧
          vadOnsetCount s (cs ++ [q]) = 0) ∧
      (∀ cs, cs.length = 6 → allCandidatesB s cs = true →
        (vadRun s cs).hasDetectedVoice = true ∧ vadOnsetCount s cs = 1) ∧
      (∀ cs, cs.length = 7 → allCandidatesB s cs = true → vadOnsetCount s cs = 1) := by
  refine ⟨?_, ?_, ?_⟩
  · intro cs q hlen hcand hq
    have hfalse : ∀ m, m ≤ 4 → (vadRun s (cs.take m)).hasDetectedVoice = false := by
      intro m hm
      have htake := allCandidatesB_take s cs m hcand
      have hiff := (candRunFalse (cs.take m) s h0d htake).2.1
      have hlt : (cs.take m).length ≤ 4 := by
        rw [List.length_take, hlen]; omega
      cases hx : (vadRun s (cs.take m)).hasDetectedVoice
      · rfl
      · exfalso
        have := hiff.mp hx
        omega
    have h4 : (vadRun s cs).hasDetectedVoice = false := by
      have := hfalse 4 (le_refl 4)
      rwa [List.take_of_length_le (by omega)] at this
    obtain ⟨hqv, hqs, hqd, hqf, _⟩ := vadStep_quiet (vadRun s cs) q.1 q.2 hq
    constructor
    · intro n
      by_cases hn : n ≤ 4
      · have hts : (cs ++ [q]).take n = cs.take n := by
          rw [List.take_append_of_le_length (by omega)]
        rw [hts]
        exact hfalse n hn
      · have hts : (cs ++ [q]).take n = cs ++ [q] := by
          apply List.take_of_length_le
          rw [List.length_append, hlen]
          simp
          omega
        rw [hts, vadRun_append, vadRun_cons, vadRun_nil, hqd]
        exact h4
    · rw [vadOnsetCount_append]
      have hc0 : vadOnsetCount s cs = 0 := by
        have := (candRunFalse cs s h0d hcand).2.2
        rw [hlen, h0v] at this
        simpa using this
      rw [hc0, vadOnsetCount, vadOnsetCount, hqf]
      simp
  · intro cs hlen hcand
    obtain ⟨hv, hiff, hcount⟩ := candRunFalse cs s h0d hcand
    rw [hlen, h0v] at hiff hcount
    refine ⟨?_, ?_⟩
    · rw [hiff]; omega
    · rw [hcount, if_pos (by omega)]
  · intro cs hlen hcand
    have hcount := (candRunFalse cs s h0d hcand).2.2
    rw [hlen, h0v] at hcount
    rw [hcount, if_pos (by omega)]

/-- Witness for C2, from the fresh state `initVAD`: blocks with RMS
`10^k` (so each exceeds 3.5x the adapting noise floor) and ZCR 1, plus the
quiet block `(0, 0)`. -/
theorem c2_vad_onset_hysteresis_witness :
    (vadRun initVAD (([((10 : ℚ), (1 : ℚ)), (100, 1), (1000, 1), (10000, 1)] ++
        [((0 : ℚ), (0 : ℚ))]).take 5)).hasDetectedVoice = false ∧
      vadOnsetCount initVAD ([((10 : ℚ), (1 : ℚ)), (100, 1), (1000, 1), (10000, 1)] ++
        [((0 : ℚ), (0 : ℚ))]) = 0 ∧
      (vadRun initVAD [((10 : ℚ), (1 : ℚ)), (100, 1), (1000, 1), (10000, 1),
        (100000, 1), (1000000, 1)]).hasDetectedVoice = true ∧
      vadOnsetCount initVAD [((10 : ℚ), (1 : ℚ)), (100, 1), (1000, 1), (10000, 1),
        (100000, 1), (1000000, 1)] = 1 ∧
      vadOnsetCount initVAD [((10 : ℚ), (1 : ℚ)), (100, 1), (1000, 1), (10000, 1),
        (100000, 1), (1000000, 1), (10000000, 1)] = 1 := by
  obtain ⟨h1, h2, h3⟩ := c2_vad_onset_hysteresis initVAD rfl rfl
  have hA := h1 [((10 : ℚ), (1 : ℚ)), (100, 1), (1000, 1), (10000, 1)] ((0 : ℚ), (0 : ℚ))
    rfl
    (by norm_num [allCandidatesB, isCandidateB, vadStep, nfUpdate, pushHistory, initVAD])
    (by norm_num [vadRun, vadStep, isCandidateB, nfUpdate, pushHistory, initVAD])
  have hB := h2 [((10 : ℚ), (1 : ℚ)), (100, 1), (1000, 1), (10000, 1), (100000, 1),
      (1000000, 1)]
    rfl
    (by norm_num [allCandidatesB, isCandidateB, vadStep, nfUpdate, pushHistory, initVAD])
  have hC := h3 [((10 : ℚ), (1 : ℚ)), (100, 1), (1000, 1), (10000, 1), (100000, 1),
      (1000000, 1), (10000000, 1)]
    rfl
    (by norm_num [allCandidatesB, isCandidateB, vadStep, nfUpdate, pushHistory, initVAD])
  exact ⟨hA.1 5, hA.2, hB.1, hB.2, hC⟩

theorem batchRun_nil (inRate : ℕ) (s : BatchState) : batchRun inRate s [] = s := rfl

theorem batchRun_cons (inRate : ℕ) (s : BatchState) (e : BatchEvent) (es : List BatchEvent) :
    batchRun inRate s (e :: es) = batchRun inRate (batchStep inRate s e) es := rfl

theorem stopRecordingStep_silenceStops (s : BatchState) :
    (stopRecordingStep s).silenceStops = s.silenceStops := by
  unfold stopRecordingStep
  split
  · rfl
  · dsimp only
    split <;> rfl

theorem stopRecordingStep_isRecording (s : BatchState) :
    (stopRecordingStep s).isRecording = false := by
  unfold stopRecordingStep
  split
  · next hx => exact hx
  · dsimp only
    split <;> rfl

theorem processBlock_notRec (inRate t : ℕ) (a : List ℚ) (r : ℚ) (s : BatchState)
    (h : s.isRecording = false) : processBlock inRate t a r s = s := by
  unfold processBlock
  rw [if_pos h]

theorem processBlock_stops (inRate t : ℕ) (a : List ℚ) (r : ℚ) (s : BatchState) :
    ((processBlock inRate t a r s).silenceStops = s.silenceStops ∧
        (processBlock inRate t a r s).isRecording = s.isRecording) ∨
      ((processBlock inRate t a r s).silenceStops = s.silenceStops + 1 ∧
        (processBlock inRate t a r s).isRecording = false) := by
  unfold processBlock
  by_cases h : s.isRecording = false
  · rw [if_pos h]
    left
    exact ⟨rfl, rfl⟩
  · rw [if_neg h]
    simp only
    split
    · right
      rw [stopRecordingStep_silenceStops]
      exact ⟨rfl, stopRecordingStep_isRecording _⟩
    · left
      exact ⟨rfl, rfl⟩

theorem blockRun_silenceStops (inRate : ℕ) (evs : List BatchEvent) :
    ∀ s : BatchState, allBlockEvts evs = true →
      (batchRun inRate s evs).silenceStops ≤ s.silenceStops + 1 ∧
        (s.isRecording = false → batchRun inRate s evs = s) := by
  induction evs with
  | nil => intro s _; exact ⟨by rw [batchRun_nil]; omega, fun _ => rfl⟩
  | cons e es ih =>
    intro s hall
    rw [allBlockEvts, List.all_cons, Bool.and_eq_true] at hall
    have hall2 : allBlockEvts es = true := hall.2
    cases e with
    | startEvt t => simp [isBlockEvt] at hall
    | stopClickEvt t => simp [isBlockEvt] at hall
    | timerFireEvt t => simp [isBlockEvt] at hall
    | blockEvt t a r =>
      have hstep : batchStep inRate s (BatchEvent.blockEvt t a r) = processBlock inRate t a r s :=
        rfl
      constructor
      · rcases processBlock_stops inRate t a r s with ⟨hs0, _⟩ | ⟨hs1, hr0⟩
        · have := (ih (processBlock inRate t a r s) hall2).1
          rw [batchRun_cons, hstep]
          omega
        · have hid := (ih (processBlock inRate t a r s) hall2).2 hr0
          rw [batchRun_cons, hstep, hid]
          omega
      · intro hrec
        rw [batchRun_cons, hstep, processBlock_notRec inRate t a r s hrec]
        exact (ih s hall2).2 hrec

theorem allQuietB_zero (n : ℕ) : ∀ s : VADState, s.noiseFloor = 0 →
    allQuietB s (List.replicate n ((0 : ℚ), (0 : ℚ))) = true := by
  induction n with
  | zero => intro s _; rfl
  | succ m ih =>
    intro s h
    rw [List.replicate_succ, allQuietB, Bool.and_eq_true]
    have hcand : isCandidateB s 0 0 = false := by
      rw [isCandidateB, nfUpdate, h]
      norm_num
    constructor
    · rw [hcand]
      rfl
    · apply ih
      show (vadStep s 0 0).state.noiseFloor = 0
      simp [vadStep, nfUpdate, h]

/-- C3: after `hasDetectedVoice` is set (with the silence counter freshly
reset by the last voice block), a run of consecutive quiet blocks satisfies
the auto-stop condition `silenceFrames > 45` for the first time on the 46th
quiet block — 45 quiet blocks never trigger it, 46 trigger it exactly on the
last one — and the batch session controller signals the silence stop at most
once per uninterrupted capture run, since `stopRecording` halts processing. -/
theorem c3_vad_silence_autostop :
    (∀ (s : VADState) (bs : List (ℚ × ℚ)), s.hasDetectedVoice = true →
        s.silenceFrames = 0 → allQuietB s bs = true →
        (bs.length = 45 → vadStopCount s bs = 0) ∧
          (bs.length = 46 → vadStopCount s bs = 1 ∧ vadStopCount s (bs.take 45) = 0)) ∧
      (∀ (inRate : ℕ) (st : BatchState) (evs : List BatchEvent), allBlockEvts evs = true →
        (batchRun inRate st evs).silenceStops ≤ st.silenceStops + 1) := by
  constructor
  · intro s bs h1 h2 hq
    have hcount := (quietRun bs s h1 hq).2.2
    rw [h2] at hcount
    constructor
    · intro h45
      rw [hcount, h45]
      rfl
    · intro h46
      constructor
      · rw [hcount, h46]
        rfl
      · have hqt := allQuietB_take s bs 45 hq
        have hct := (quietRun (bs.take 45) s h1 hqt).2.2
        rw [h2, List.length_take, h46] at hct
        rw [hct]
        rfl
  · intro inRate st evs hall
    exact (blockRun_silenceStops inRate evs st hall).1

/-- Witness for C3: with voice confirmed, the silence counter at 0 and the
noise floor collapsed to 0 (so every `(0, 0)` block is quiet), 45 quiet
blocks never satisfy the auto-stop condition, 46 satisfy it exactly on the
last one, and one concrete block run signals at most one silence stop. -/
theorem c3_vad_silence_autostop_witness :
    vadStopCount
        { noiseFloor := 0, vadHistory := [], voiceDetectedFrames := 0,
          silenceFrames := 0, hasDetectedVoice := true }
        (List.replicate 45 ((0 : ℚ), (0 : ℚ))) = 0 ∧
      vadStopCount
        { noiseFloor := 0, vadHistory := [], voiceDetectedFrames := 0,
          silenceFrames := 0, hasDetectedVoice := true }
        (List.replicate 46 ((0 : ℚ), (0 : ℚ))) = 1 ∧
      (batchRun 16000 initBatch [BatchEvent.blockEvt 0 [] 0]).silenceStops ≤
        initBatch.silenceStops + 1 := by
  obtain ⟨hvad, hmachine⟩ := c3_vad_silence_autostop
  refine ⟨?_, ?_, ?_⟩
  · exact (hvad _ _ rfl rfl (allQuietB_zero 45 _ rfl) ).1 (by simp)
  · exact ((hvad _ _ rfl rfl (allQuietB_zero 46 _ rfl) ).2 (by simp)).1
  · exact hmachine 16000 initBatch [BatchEvent.blockEvt 0 [] 0] rfl

theorem stopRecordingStep_notRec (s : BatchState) (h : s.isRecording = false) :
    stopRecordingStep s = s := by
  unfold stopRecordingStep
  rw [if_pos h]

theorem stopRecordingStep_fields (s : BatchState) :
    (stopRecordingStep s).isRecording = false ∧
      (stopRecordingStep s).chunkTimes = [] ∨ stopRecordingStep s = s := by
  unfold stopRecordingStep
  split
  · next h => right; rfl
  · dsimp only
    split
    · left; exact ⟨rfl, rfl⟩
    · left; exact ⟨rfl, rfl⟩

theorem stopRecordingStep_start (s : BatchState) :
    (stopRecordingStep s).recordingStartTime = s.recordingStartTime := by
  unfold stopRecordingStep
  split
  · rfl
  · dsimp only
    split <;> rfl

theorem stopRecordingStep_rec (s : BatchState) (h : s.isRecording = true) :
    (stopRecordingStep s).isRecording = false ∧ (stopRecordingStep s).timerPending = false ∧
      (stopRecordingStep s).chunkTimes = [] ∧
      (stopRecordingStep s).recordingStartTime = s.recordingStartTime := by
  unfold stopRecordingStep
  rw [if_neg (by simp [h])]
  dsimp only
  split <;> exact ⟨rfl, rfl, rfl, rfl⟩

theorem timerInv_stop (x : BatchState) (hx : x.isRecording = true) (t : ℕ) :
    timerInv (stopRecordingStep x) t := by
  obtain ⟨hfr, _, hft, _⟩ := stopRecordingStep_rec x hx
  refine ⟨fun h => absurd h (by simp [hfr]), ?_, fun _ => hft⟩
  intro t' ht'
  rw [hft] at ht'
  simp at ht'

theorem timerInv_step (inRate : ℕ) (s : BatchState) (tprev : ℕ) (e : BatchEvent)
    (hinv : timerInv s tprev) (h1 : tprev ≤ e.time)
    (h2 : s.timerPending = true → e.time ≤ s.recordingStartTime + 30000) :
    timerInv (batchStep inRate s e) e.time := by
  obtain ⟨hrec, hbound, hdead⟩ := hinv
  cases e with
  | startEvt t =>
    show timerInv (startStep t s) t
    unfold startStep
    by_cases hr : s.isRecording
    · rw [if_pos hr]
      obtain ⟨hp, hst⟩ := hrec hr
      exact ⟨fun _ => ⟨hp, le_trans hst h1⟩, hbound, hdead⟩
    · rw [if_neg hr]
      refine ⟨fun _ => ⟨rfl, le_refl t⟩, by simp, by simp⟩
  | blockEvt t a r =>
    show timerInv (processBlock inRate t a r s) t
    by_cases hr : s.isRecording = true
    · obtain ⟨hp, hst⟩ := hrec hr
      have htle : t ≤ s.recordingStartTime + 30000 := h2 hp
      have hstt : s.recordingStartTime ≤ t := le_trans hst h1
      unfold processBlock
      rw [if_neg (by simp [hr])]
      dsimp only
      split
      · apply timerInv_stop
        exact hr
      · refine ⟨fun _ => ⟨hp, hstt⟩, ?_, ?_⟩
        · intro t' ht'
          simp only [List.mem_append, List.mem_singleton] at ht'
          rcases ht' with hin | hq
          · exact hbound t' hin
          · subst hq; exact ⟨hstt, htle⟩
        · intro hx
          rw [hx] at hr
          cases hr
    · have hr' : s.isRecording = false := by
        cases hx : s.isRecording
        · rfl
        · exact absurd hx hr
      rw [processBlock_notRec inRate t a r s hr']
      refine ⟨fun hx => absurd hx hr, hbound, hdead⟩
  | stopClickEvt t =>
    show timerInv (stopRecordingStep s) t
    by_cases hr : s.isRecording = true
    · exact timerInv_stop s hr t
    · have hr' : s.isRecording = false := by
        cases hx : s.isRecording
        · rfl
        · exact absurd hx hr
      rw [stopRecordingStep_notRec s hr']
      refine ⟨fun hx => absurd hx hr, hbound, hdead⟩
  | timerFireEvt t =>
    show timerInv (timerStep s) t
    unfold timerStep
    dsimp only
    by_cases hr : s.isRecording
    · rw [if_pos hr]
      exact timerInv_stop ({ s with timerPending := false } : BatchState) hr t
    · rw [if_neg hr]
      have hr' : s.isRecording = false := by
        cases hx : s.isRecording
        · rfl
        · exact absurd hx hr
      refine ⟨fun hx => absurd hx (by simp [hr']), hbound, fun _ => hdead hr'⟩

theorem validRun_inv (inRate : ℕ) : ∀ (evs : List BatchEvent) (s : BatchState) (tprev : ℕ),
    timerInv s tprev → validFrom inRate s tprev evs = true →
    timerInv (batchRun inRate s evs) (lastT tprev evs) := by
  intro evs
  induction evs with
  | nil => intro s tprev hinv _; exact hinv
  | cons e es ih =>
    intro s tprev hinv hv
    rw [validFrom, Bool.and_eq_true, Bool.and_eq_true, Bool.and_eq_true] at hv
    obtain ⟨⟨⟨ht, hpend⟩, _⟩, hrest⟩ := hv
    have h1 : tprev ≤ e.time := by exact_mod_cast of_decide_eq_true ht
    have h2 : s.timerPending = true → e.time ≤ s.recordingStartTime + 30000 := by
      intro hp
      rcases Bool.or_eq_true _ _ |>.mp hpend with hx | hx
      · rw [Bool.not_eq_true'] at hx
        rw [hp] at hx
        cases hx
      · exact of_decide_eq_true hx
    exact ih (batchStep inRate s e) e.time (timerInv_step inRate s tprev e hinv h1 h2) hrest

theorem validFrom_append (inRate : ℕ) : ∀ (as bs : List BatchEvent) (s : BatchState) (tprev : ℕ),
    validFrom inRate s tprev (as ++ bs) = true → validFrom inRate s tprev as = true := by
  intro as
  induction as with
  | nil => intro bs s tprev _; rfl
  | cons e es ih =>
    intro bs s tprev h
    rw [List.cons_append, validFrom, Bool.and_eq_true] at h
    rw [validFrom, Bool.and_eq_true]
    exact ⟨h.1, ih bs _ _ h.2⟩

/-- C9: `startRecording` arms a 30000 ms timer whose firing invokes
`stopRecording` if the session is still recording, and `stopRecording`
clears it; consequently, along any valid timed trace from the initial page
state, every audio chunk held by the running batch session was captured no
more than 30000 ms after `recordingStartTime` — no batch session records
past the 30-second cap, regardless of VAD activity. -/
theorem c9_max_duration (inRate : ℕ) (es1 es2 : List BatchEvent)
    (h : validFrom inRate initBatch 0 (es1 ++ es2) = true) :
    ∀ t ∈ (batchRun inRate initBatch es1).chunkTimes,
      (batchRun inRate initBatch es1).recordingStartTime ≤ t ∧
        t ≤ (batchRun inRate initBatch es1).recordingStartTime + 30000 := by
  have h1 := validFrom_append inRate es1 es2 initBatch 0 h
  have h0 : timerInv initBatch 0 := by
    refine ⟨?_, ?_, ?_⟩
    · intro hx
      cases hx
    · intro t ht
      simp [initBatch] at ht
    · intro _
      rfl
  exact (validRun_inv inRate es1 initBatch 0 h0 h1).2.1

/-- C10: when `stopRecording` runs on a recording session whose combined
audio is empty, no `/transcribe` request is sent, the toast sequence ends
with "No audio recorded.", the target element's value is untouched, and the
session stops. -/
theorem c10_empty_audio (s : BatchState) (h1 : s.isRecording = true)
    (h2 : (s.recordedChunks.map List.length).sum = 0) :
    (stopRecordingStep s).requestsSent = s.requestsSent ∧
      (stopRecordingStep s).toasts = s.toasts ++ ["Transcribing…", "No audio recorded."] ∧
      (stopRecordingStep s).elementValue = s.elementValue ∧
      (stopRecordingStep s).isRecording = false := by
  unfold stopRecordingStep
  rw [if_neg (by simp [h1])]
  dsimp only
  rw [if_pos h2]
  refine ⟨rfl, by simp, rfl, rfl⟩

/-- Witness for C10: stopping a recording session that captured no samples
sends no request, reports "No audio recorded.", and leaves the element
value unchanged. -/
theorem c10_empty_audio_witness :
    (stopRecordingStep { initBatch with isRecording := true }).requestsSent =
        ({ initBatch with isRecording := true } : BatchState).requestsSent ∧
      (stopRecordingStep { initBatch with isRecording := true }).toasts =
        ({ initBatch with isRecording := true } : BatchState).toasts ++
          ["Transcribing…", "No audio recorded."] ∧
      (stopRecordingStep { initBatch with isRecording := true }).elementValue =
        ({ initBatch with isRecording := true } : BatchState).elementValue ∧
      (stopRecordingStep { initBatch with isRecording := true }).isRecording = false :=
  c10_empty_audio { initBatch with isRecording := true } rfl rfl

/-- Witness for C9: a session started at time 0 with one chunk captured at
time 100, whose timer fires at 30000 in the remainder of the trace. -/
theorem c9_max_duration_witness :
    (batchRun 16000 initBatch
          [BatchEvent.startEvt 0, BatchEvent.blockEvt 100 [] 0]).recordingStartTime ≤ 100 ∧
      100 ≤ (batchRun 16000 initBatch
          [BatchEvent.startEvt 0, BatchEvent.blockEvt 100 [] 0]).recordingStartTime + 30000 := by
  have h := c9_max_duration 16000 [BatchEvent.startEvt 0, BatchEvent.blockEvt 100 [] 0]
    [BatchEvent.timerFireEvt 30000] ?hv
  case hv =>
    norm_num [validFrom, timerOk, batchStep, startStep, processBlock, stopRecordingStep,
      timerStep, vadStep, isCandidateB, nfUpdate, pushHistory, zcrOf, zcrCount,
      downsampleFloat32, floatTo16BitPCM, initBatch, BatchEvent.time, initVAD]
  apply h
  norm_num [batchRun, batchStep, startStep, processBlock, vadStep, isCandidateB, nfUpdate,
    pushHistory, zcrOf, zcrCount, downsampleFloat32, floatTo16BitPCM, initBatch, initVAD]

theorem handleHypo_drop (s : StreamState) (raw : String) (now : ℕ)
    (h : (handleHypo s raw now).2 = false) : (handleHypo s raw now).1 = s := by
  unfold handleHypo at h ⊢
  split_ifs at h ⊢ <;> rfl

theorem handleHypo_emit (s : StreamState) (raw : String) (now : ℕ)
    (h : (handleHypo s raw now).2 = true) :
    (handleHypo s raw now).1 =
      { s with lastHypo := strTrim raw, lastHypoTs := now,
               liveText := some (strTrim raw) } := by
  unfold handleHypo at h ⊢
  split_ifs at h ⊢ <;> rfl

/-- C1: a partial hypothesis is exposed (inserted as live text) iff it
survives the five throttle checks of `handleWsMessage` — non-empty after
trimming, at least 3 characters, different from `lastPartial`, at least
250 ms after `lastPartialTs`, and not both a strict prefix of `lastPartial`
and shorter than it — and the throttle fields are updated exactly on
exposure; in particular with `lastPartial = "hello wor"` a later "hello" is
never exposed, while "hello world" is exposed once the debounce interval
has elapsed. -/
theorem c1_hypothesis_throttle (s : StreamState) (raw : String) (now : ℕ) :
    ((handleHypo s raw now).2 = true ↔
        (strTrim raw ≠ "" ∧ 3 ≤ (strTrim raw).length ∧ strTrim raw ≠ s.lastHypo ∧
          250 ≤ now - s.lastHypoTs ∧
          ¬(strStartsWith s.lastHypo (strTrim raw) = true ∧
            (strTrim raw).length < s.lastHypo.length))) ∧
      ((handleHypo s raw now).2 = false → (handleHypo s raw now).1 = s) ∧
      ((handleHypo s raw now).2 = true →
        (handleHypo s raw now).1 =
          { s with lastHypo := strTrim raw, lastHypoTs := now,
                   liveText := some (strTrim raw) }) ∧
      (s.wsOpen = true →
        streamStep s (StreamEvent.hypoEvt raw now) = (handleHypo s raw now).1) ∧
      (s.lastHypo = "hello wor" → (handleHypo s "hello" now).2 = false) ∧
      (s.lastHypo = "hello wor" → 250 ≤ now - s.lastHypoTs →
        (handleHypo s "hello world" now).2 = true ∧
          (handleHypo s "hello world" now).1.liveText = some "hello world") := by
  refine ⟨?_, handleHypo_drop s raw now, handleHypo_emit s raw now, ?_, ?_, ?_⟩
  · unfold handleHypo
    split_ifs with h1 h2 h3 h4 h5
    · simp [h1]
    · constructor
      · intro hx; cases hx
      · rintro ⟨_, hlen, _⟩; omega
    · constructor
      · intro hx; cases hx
      · rintro ⟨_, _, hne, _⟩; exact hne h3
    · constructor
      · intro hx; cases hx
      · rintro ⟨_, _, _, hdeb, _⟩; omega
    · constructor
      · intro hx; cases hx
      · rintro ⟨_, _, _, _, hnot⟩; exact hnot ⟨h5.2.1, h5.2.2⟩
    · constructor
      · intro _
        refine ⟨h1, by omega, h3, by omega, ?_⟩
        rintro ⟨hsw, hsh⟩
        apply h5
        refine ⟨?_, hsw, hsh⟩
        intro he
        rw [he] at hsh
        simp at hsh
      · intro _; rfl
  · intro hws
    simp [streamStep, hws]
  · intro hl
    have ht : strTrim "hello" = "hello" := by decide
    unfold handleHypo
    rw [hl, ht]
    by_cases hd : now - s.lastHypoTs < 250
    · rw [if_neg (by decide), if_neg (by decide), if_neg (by decide), if_pos hd]
    · rw [if_neg (by decide), if_neg (by decide), if_neg (by decide), if_neg hd,
        if_pos (by decide)]
  · intro hl hd
    have ht : strTrim "hello world" = "hello world" := by decide
    unfold handleHypo
    rw [hl, ht]
    rw [if_neg (by decide), if_neg (by decide), if_neg (by decide), if_neg (by omega),
      if_neg (by decide)]
    exact ⟨rfl, rfl⟩

/-- Witness for C1: with `lastPartial = "hello wor"` and an elapsed debounce
interval, the hypothesis "hello" is dropped while "hello world" is exposed
as live text. -/
theorem c1_hypothesis_throttle_witness :
    (handleHypo ({ initStream with lastHypo := "hello wor", wsOpen := true })
        "hello" 1000).2 = false ∧
      (handleHypo ({ initStream with lastHypo := "hello wor", wsOpen := true })
          "hello world" 1000).2 = true ∧
        (handleHypo ({ initStream with lastHypo := "hello wor", wsOpen := true })
            "hello world" 1000).1.liveText = some "hello world" := by
  have h := c1_hypothesis_throttle
    ({ initStream with lastHypo := "hello wor", wsOpen := true }) "hello" 1000
  exact ⟨h.2.2.2.2.1 rfl, h.2.2.2.2.2 rfl (by decide)⟩

/-- C6 counterexample: after the user clicks stop the client is in the
Stopping state (stop sent, socket still open, no longer recording), yet a
`partial` arriving then is still accepted by `handleWsMessage` and inserted
as live text — the code never gates partials on the session phase. -/
theorem c6_stopping_accepts_counterexample :
    (streamRun initStream [StreamEvent.startEvt 0, StreamEvent.hypoEvt "hello there" 1000,
        StreamEvent.stopClickEvt]).isRecording = false ∧
      (streamRun initStream [StreamEvent.startEvt 0, StreamEvent.hypoEvt "hello there" 1000,
        StreamEvent.stopClickEvt]).stopSent = true ∧
      (streamRun initStream [StreamEvent.startEvt 0, StreamEvent.hypoEvt "hello there" 1000,
        StreamEvent.stopClickEvt]).wsOpen = true ∧
      (streamRun initStream [StreamEvent.startEvt 0, StreamEvent.hypoEvt "hello there" 1000,
        StreamEvent.stopClickEvt, StreamEvent.hypoEvt "hello there friend" 2000]).liveText =
        some "hello there friend" := by
  refine ⟨?_, ?_, ?_, ?_⟩ <;> decide

/-- C6 (amended): partial messages are processed by the throttle whenever
the WebSocket is open — including in the Stopping state, after `stop` has
been sent — and only once the streaming session has been cleaned up (socket
closed after `final`, `error`, or an unexpected close) is a partial never
accepted or exposed. -/
theorem c6_no_expose_after_close_amended (s : StreamState) (raw : String) (now : ℕ) :
    (s.wsOpen = false → streamStep s (StreamEvent.hypoEvt raw now) = s) ∧
      (s.wsOpen = true → (handleHypo s raw now).2 = true →
        (streamStep s (StreamEvent.hypoEvt raw now)).liveText = some (strTrim raw)) := by
  constructor
  · intro h
    simp [streamStep, h]
  · intro hws hemit
    have hh := handleHypo_emit s raw now hemit
    simp [streamStep, hws, hh]

/-- Witness for C6 (amended): with the socket closed, a partial leaves the
state untouched; with it open in the Stopping state, a surviving partial is
exposed. -/
theorem c6_no_expose_after_close_amended_witness :
    streamStep initStream (StreamEvent.hypoEvt "hello there" 1000) = initStream ∧
      (streamStep ({ initStream with wsOpen := true, stopSent := true })
          (StreamEvent.hypoEvt "hello there" 1000)).liveText = some (strTrim "hello there") := by
  constructor
  · exact (c6_no_expose_after_close_amended initStream "hello there" 1000).1 rfl
  · exact (c6_no_expose_after_close_amended
      ({ initStream with wsOpen := true, stopSent := true }) "hello there" 1000).2 rfl (by decide)

/-- C7 counterexample: the trace start → partial "hello there" → stop click
reaches the non-terminal Stopping state with live text inserted; when the
socket then closes unexpectedly, `ws.onclose` does nothing (its body is
guarded by `isRecording`), so the live partial text is not removed and no
local state is discarded. -/
theorem c7_close_while_stopping_counterexample :
    (streamRun initStream [StreamEvent.startEvt 0, StreamEvent.hypoEvt "hello there" 1000,
        StreamEvent.stopClickEvt]).isRecording = false ∧
      (streamRun initStream [StreamEvent.startEvt 0, StreamEvent.hypoEvt "hello there" 1000,
        StreamEvent.stopClickEvt]).wsOpen = true ∧
      (streamRun initStream [StreamEvent.startEvt 0, StreamEvent.hypoEvt "hello there" 1000,
        StreamEvent.stopClickEvt]).liveText = some "hello there" ∧
      streamRun initStream [StreamEvent.startEvt 0, StreamEvent.hypoEvt "hello there" 1000,
        StreamEvent.stopClickEvt, StreamEvent.wsCloseEvt] =
        streamRun initStream [StreamEvent.startEvt 0, StreamEvent.hypoEvt "hello there" 1000,
          StreamEvent.stopClickEvt] := by
  refine ⟨?_, ?_, ?_, ?_⟩ <;> decide

/-- C7 (amended): an unexpected socket close is treated as an implicit
cancel only while the client is Streaming (`isRecording`): then all local
streaming state is discarded, the live partial text is removed, and no
transcript is delivered; a close in any other state — including the
non-terminal Stopping state — does nothing, leaving any inserted live text
in place (still with no transcript delivered). -/
theorem c7_close_implicit_cancel_amended (s : StreamState) :
    (s.isRecording = true →
        streamStep s StreamEvent.wsCloseEvt =
          { s with liveText := none, wsOpen := false, isRecording := false,
                   audioActive := false, lastHypo := "", lastHypoTs := 0 } ∧
          (streamStep s StreamEvent.wsCloseEvt).insertedFinal = s.insertedFinal) ∧
      (s.isRecording = false → streamStep s StreamEvent.wsCloseEvt = s) := by
  constructor
  · intro h
    constructor
    · simp [streamStep, h]
    · simp [streamStep, h]
  · intro h
    simp [streamStep, h]

/-- Witness for C7 (amended): a close while recording clears the live text
and session state; a close while not recording changes nothing. -/
theorem c7_close_implicit_cancel_amended_witness :
    streamStep
        ({ initStream with
            isRecording := true, wsOpen := true, liveText := some "hello there" })
        StreamEvent.wsCloseEvt =
      ({ initStream with isRecording := false, wsOpen := false, liveText := none }) ∧
      streamStep initStream StreamEvent.wsCloseEvt = initStream := by
  constructor
  · have h := (c7_close_implicit_cancel_amended
      ({ initStream with
          isRecording := true, wsOpen := true, liveText := some "hello there" })).1 rfl
    rw [h.1]
    rfl
  · exact (c7_close_implicit_cancel_amended initStream).2 rfl
